import Mathlib

/-!
Shallow embedding of the client-side authentication session manager in
`src/frontend/client/src/context/AuthContext.js`.

JavaScript/JSON values are modelled by `JValue` (numbers as integers).
The React component state (`accessToken`, `user`, `role`, `userName`) is
`SessionState`; `localStorage` is `Storage` (a record of the four keys the
program uses; `localStorage.clear()` empties it).  A `World` bundles both
plus a counter of refresh-endpoint calls used to state the retry-once
protocol.  HTTP outcomes and the axios error shape are explicit data,
so each operation is a pure function of the response it receives.
-/

namespace Auth

/-- JSON/JavaScript data values (numbers modelled as integers). -/
inductive JValue where
  | jnull : JValue
  | jbool (b : Bool) : JValue
  | jnum (n : Int) : JValue
  | jstr (s : String) : JValue
  | jarr (xs : List JValue) : JValue
  | jobj (fs : List (String × JValue)) : JValue
deriving Repr

namespace JValue

/-- JavaScript truthiness of a value. -/
def truthy : JValue → Bool
  | .jnull => false
  | .jbool b => b
  | .jnum n => n ≠ 0
  | .jstr s => s ≠ ""
  | .jarr _ => true
  | .jobj _ => true

/-- Property access `v?.k`: `none` models `undefined` (missing key or
non-object receiver); a key bound to JSON `null` yields `some jnull`. -/
def getF : JValue → String → Option JValue
  | .jobj fs, k => (fs.find? (fun p => p.1 == k)).map (·.2)
  | _, _ => none

end JValue

/-- Truthiness of a possibly-`undefined` value. -/
def truthyO : Option JValue → Bool
  | none => false
  | some v => v.truthy

/-- JavaScript `a || b` on possibly-undefined values, with `x || null`
normalised to `none`. -/
def jsOr (a b : Option JValue) : Option JValue :=
  if truthyO a then a else b

/-- JavaScript nullish coalescing `a ?? b`: `b` only when `a` is
`undefined` or `null`. -/
def nullish (a b : Option JValue) : Option JValue :=
  match a with
  | none => b
  | some .jnull => b
  | some v => some v

/-- JavaScript `String(v)` coercion (as applied by `localStorage.setItem`
and template literals). -/
def jsToString : JValue → String
  | .jnull => "null"
  | .jbool true => "true"
  | .jbool false => "false"
  | .jnum n => toString n
  | .jstr s => s
  | .jarr xs => String.intercalate "," (xs.attach.map fun x => jsToString x.1)
  | .jobj _ => "[object Object]"
decreasing_by
  have := List.sizeOf_lt_of_mem x.2
  simp only [JValue.jarr.sizeOf_spec]
  omega

/-- `String(v)` where `v` may be `undefined`. -/
def jsToStringO : Option JValue → String
  | none => "undefined"
  | some v => jsToString v

/-- Hexadecimal digit character, for `\u00XY` escapes. -/
def hexDig : Nat → Char
  | 0 => '0' | 1 => '1' | 2 => '2' | 3 => '3' | 4 => '4'
  | 5 => '5' | 6 => '6' | 7 => '7' | 8 => '8' | 9 => '9'
  | 10 => 'a' | 11 => 'b' | 12 => 'c' | 13 => 'd' | 14 => 'e' | 15 => 'f'
  | _ => '*'

/-- Decimal digit character. -/
def digChar : Nat → Char
  | 0 => '0' | 1 => '1' | 2 => '2' | 3 => '3' | 4 => '4'
  | 5 => '5' | 6 => '6' | 7 => '7' | 8 => '8' | 9 => '9'
  | _ => '*'

/-- JSON escape of one character inside a string literal. -/
def escChar (c : Char) : List Char :=
  if c = '"' then ['\\', '"']
  else if c = '\\' then ['\\', '\\']
  else if c.toNat < 32 then
    ['\\', 'u', '0', '0', hexDig (c.toNat / 16), hexDig (c.toNat % 16)]
  else [c]

/-- JSON escape of a string body. -/
def escStr : List Char → List Char
  | [] => []
  | c :: cs => escChar c ++ escStr cs

/-- Decimal digits of a natural number, most significant first. -/
def natChars (n : Nat) : List Char :=
  if _h : n < 10 then [digChar n]
  else natChars (n / 10) ++ [digChar (n % 10)]
decreasing_by
  exact Nat.div_lt_self (by omega) (by omega)

/-- Decimal rendering of an integer. -/
def intChars (n : Int) : List Char :=
  if n < 0 then '-' :: natChars n.natAbs else natChars n.toNat

mutual

/-- `JSON.stringify` output, as a character list. -/
def printV : JValue → List Char
  | .jnull => ['n', 'u', 'l', 'l']
  | .jbool true => ['t', 'r', 'u', 'e']
  | .jbool false => ['f', 'a', 'l', 's', 'e']
  | .jnum n => intChars n
  | .jstr s => '"' :: (escStr s.data ++ ['"'])
  | .jarr xs => '[' :: (printElems xs ++ [']'])
  | .jobj fs => '\x7b' :: (printFields fs ++ ['\x7d'])

/-- Comma-separated array elements. -/
def printElems : List JValue → List Char
  | [] => []
  | [x] => printV x
  | x :: y :: xs => printV x ++ ',' :: printElems (y :: xs)

/-- Comma-separated object members. -/
def printFields : List (String × JValue) → List Char
  | [] => []
  | [(k, v)] => ('"' :: (escStr k.data ++ ['"'])) ++ ':' :: printV v
  | (k, v) :: kv :: fs =>
    (('"' :: (escStr k.data ++ ['"'])) ++ ':' :: printV v) ++
      ',' :: printFields (kv :: fs)

end

/-- `JSON.stringify(v)`. -/
def jsonStringify (v : JValue) : String := ⟨printV v⟩

/-- The React component state: the four session fields
(`accessToken`, `user`, `role`, `userName`), each possibly `null`. -/
structure SessionState where
  accessToken : Option JValue
  user : Option JValue
  role : Option JValue
  userName : Option JValue
deriving Repr

/-- `localStorage`, restricted to the four keys the program uses.
Values are strings, as in Web Storage; `none` means the key is absent. -/
structure Storage where
  accessToken : Option String
  user : Option String
  role : Option String
  userName : Option String
deriving Repr, DecidableEq

/-- A world: in-memory state, durable storage, and an instrumentation
counter of calls made to the `/api/auth/refresh-token` endpoint. -/
structure World where
  state : SessionState
  store : Storage
  refreshCalls : Nat
deriving Repr

/-- The state after all four `set*(null)` calls of `logout`. -/
def emptyState : SessionState := ⟨none, none, none, none⟩

/-- Storage after `localStorage.clear()`. -/
def emptyStore : Storage := ⟨none, none, none, none⟩

/-- An axios rejection: `status`/`data` come from `error.response?` when a
response exists (`status = none` models a transport failure with no
response), and `message` is `error.message`. A plain thrown
`new Error(msg)` is the special case with no response. -/
structure AxiosErr where
  status : Option Nat
  data : Option JValue
  message : String
deriving Repr

/-- Outcome of one HTTP call: the resolved `res.data`, or a rejection. -/
inductive HttpOutcome where
  | ok (data : JValue)
  | err (e : AxiosErr)
deriving Repr

/-- An axios rejection corresponding to `throw new Error(msg)`. -/
def jsError (msg : String) : AxiosErr := ⟨none, none, msg⟩

/-- `isAuthenticated`: `() => !!accessToken && !!user`. -/
def isAuthenticated (s : SessionState) : Bool :=
  truthyO s.accessToken && truthyO s.user

/-- `decodeToken`: applies the ambient `jwtDecode` (modelled by the
parameter `decode`); any failure — including a non-string argument — is
caught and yields `null`. -/
def decodeToken (decode : String → Option JValue) : JValue → Option JValue
  | .jstr s => decode s
  | _ => none

/-- Error message raised by a failed `login` call:
`error.response?.data?.detail || error.response?.data?.message ||
error.message || "Error logging in"`, coerced to a string by the
`Error` constructor. -/
def loginErrMsg (e : AxiosErr) : String :=
  jsToStringO
    (jsOr (jsOr (jsOr (e.data.bind (·.getF "detail"))
                      (e.data.bind (·.getF "message")))
                (if e.message = "" then none else some (.jstr e.message)))
          (some (.jstr "Error logging in")))

/-- Error message raised by a failed `signUp` call:
`error.response?.data?.message || error.response?.data?.detail ||
error.message || "Signup failed"`. -/
def signUpErrMsg (e : AxiosErr) : String :=
  jsToStringO
    (jsOr (jsOr (jsOr (e.data.bind (·.getF "message"))
                      (e.data.bind (·.getF "detail")))
                (if e.message = "" then none else some (.jstr e.message)))
          (some (.jstr "Signup failed")))

/-- `signUp`: posts to `/signup` and returns `res.data`, or raises the
message extracted by `signUpErrMsg`. It touches no session state. -/
def signUp (outcome : HttpOutcome) : Except String JValue :=
  match outcome with
  | .ok data => .ok data
  | .err e => .error (signUpErrMsg e)

/-- `const userData = res.data?.user || {}`. -/
def loginUserData (data : JValue) : JValue :=
  (jsOr (data.getF "user") (some (.jobj []))).getD (.jobj [])

/-- `const userrole = userData?.role || roleParam || null`. -/
def loginUserRole (roleParam : Option JValue) (data : JValue) : Option JValue :=
  jsOr (jsOr ((loginUserData data).getF "role") roleParam) none

/-- `const isActiveRaw = res.data?.is_active ?? userData?.is_active`. -/
def loginIsActiveRaw (data : JValue) : Option JValue :=
  nullish (data.getF "is_active") ((loginUserData data).getF "is_active")

/-- `const isApproved = isActiveRaw === true || isActiveRaw === "true"`. -/
def loginIsApproved (data : JValue) : Bool :=
  match loginIsActiveRaw data with
  | some (.jbool true) => true
  | some (.jstr s) => s == "true"
  | _ => false

/-- `login({email, password, role})` applied to the outcome of the
`/login` call. Returns the updated world together with `res.data` on
success, or the raised error message. `roleParam` is the destructured
`role` argument. -/
def login (roleParam : Option JValue) (outcome : HttpOutcome) (w : World) :
    World × Except String JValue :=
  match outcome with
  | .err e => (w, .error (loginErrMsg e))
  | .ok data =>
    let token := data.getF "access_token"
    let userData := loginUserData data
    let userrole := loginUserRole roleParam data
    if loginIsApproved data then
      let username := userData.getF "username"
      let st : SessionState :=
        { accessToken := token
          user := some userData
          userName := jsOr username none
          role := userrole }
      let store : Storage :=
        { accessToken := some (jsToStringO token)
          user := some (jsonStringify userData)
          role := if truthyO userrole
                  then some (jsToStringO userrole) else w.store.role
          userName := if truthyO username
                      then some (jsToStringO username) else w.store.userName }
      ({ w with state := st, store := store }, .ok data)
    else
      (w, .error (loginErrMsg (jsError "Not approved yet")))

/-- Observable events of a `logout` run, in program order. -/
inductive LEvent where
  | clearedState
  | clearedStorage
  | netLogout
  | navigated
deriving Repr, DecidableEq

/-- `logout`: reads `userRole = localStorage.getItem("role") || role`
first, then clears the four state fields and `localStorage`, and only
then — when `userRole` is truthy — attempts the network `/logout` call,
whose outcome (`netOutcome`) is swallowed. The event list records the
order of the side effects. -/
def logout (netOutcome : HttpOutcome) (w : World) : World × List LEvent :=
  let userRoleTruthy : Bool :=
    match w.store.role with
    | some s => s ≠ "" || truthyO w.state.role
    | none => truthyO w.state.role
  let w' := { w with state := emptyState, store := emptyStore }
  if userRoleTruthy then
    (w', [.clearedState, .clearedStorage, .netLogout, .navigated])
  else
    (w', [.clearedState, .clearedStorage, .navigated])

/-- `refreshAccessToken`: posts to `/refresh-token` (`outcome`), requires
a truthy `access_token` in the response, stores it, and decodes it to
refresh the `user` field when decoding succeeds. Any failure is caught:
`logout()` runs (its network outcome is `logoutNet`) and `null` is
returned. Increments the refresh-call counter. -/
def refreshAccessToken (outcome : HttpOutcome) (decode : String → Option JValue)
    (logoutNet : HttpOutcome) (w : World) : World × Option JValue :=
  let w := { w with refreshCalls := w.refreshCalls + 1 }
  match outcome with
  | .err _ => ((logout logoutNet w).1, none)
  | .ok data =>
    let token := data.getF "access_token"
    if truthyO token then
      let st := { w.state with accessToken := token }
      let decodedUser := jsOr (token.bind (decodeToken decode)) none
      let stu := if truthyO decodedUser then { st with user := decodedUser } else st
      let storeu :=
        if truthyO decodedUser then
          { w.store with user := some (jsonStringify (decodedUser.getD .jnull)) }
        else w.store
      let store := { storeu with accessToken := some (jsToStringO token) }
      ({ w with state := stu, store := store }, token)
    else
      ((logout logoutNet w).1, none)

/-- An axios request config: the per-request `_retry` marker (initially
absent, i.e. `false`) and the `Authorization` header. -/
structure Config where
  retry : Bool
  authHeader : Option String
deriving Repr, DecidableEq

/-- Result of an intercepted request as seen by its caller. -/
inductive ReqResult where
  | success (data : JValue)
  | failure (e : AxiosErr)
deriving Repr

/-- One request through the api instance with the response interceptor
installed. `send` is the server: the outcome of transmitting a given
config. On a 401 whose config has no `_retry` marker, the marker is set,
`refreshAccessToken` runs, and on a truthy new token the config is
retried through the same interceptor with a `Bearer` header; otherwise
the rejection is passed through unchanged. -/
def runRequest (send : Config → HttpOutcome) (refreshOutcome : HttpOutcome)
    (decode : String → Option JValue) (logoutNet : HttpOutcome)
    (cfg : Config) (w : World) : World × ReqResult :=
  match send cfg with
  | .ok d => (w, .success d)
  | .err e =>
    if h : e.status = some 401 ∧ cfg.retry = false then
      let cfg' : Config := { cfg with retry := true }
      let res := refreshAccessToken refreshOutcome decode logoutNet w
      if truthyO res.2 then
        let cfg'' : Config :=
          { cfg' with authHeader := some ("Bearer " ++ jsToStringO res.2) }
        runRequest send refreshOutcome decode logoutNet cfg'' res.1
      else
        (res.1, .failure e)
    else
      (w, .failure e)
termination_by if cfg.retry then 0 else 1
decreasing_by
  simp [h.2]

/-- `localStorage.getItem(k) || null` (the empty string is falsy). -/
def strOrNull : Option String → Option String
  | none => none
  | some s => if s = "" then none else some s

/-- Initial-state reconstruction from storage (the `useState`
initializers): `getItem(k) || null` for `accessToken`, `role` and
`userName`, and `storedUser ? JSON.parse(storedUser) : null` for `user`.
`parse` models the ambient `JSON.parse` (in the source a parse failure
throws here; the mount-time restore effect re-reads the same keys and
maps a failure to `null` — modelled as `none`). -/
def loadState (parse : String → Option JValue) (st : Storage) : SessionState where
  accessToken := (strOrNull st.accessToken).map .jstr
  user :=
    match st.user with
    | some s => if s = "" then none else parse s
    | none => none
  role := (strOrNull st.role).map .jstr
  userName := (strOrNull st.userName).map .jstr

/-- Value of a hexadecimal digit character. -/
def hexVal (c : Char) : Option Nat :=
  if '0' ≤ c ∧ c ≤ '9' then some (c.toNat - 48)
  else if 'a' ≤ c ∧ c ≤ 'f' then some (c.toNat - 87)
  else if 'A' ≤ c ∧ c ≤ 'F' then some (c.toNat - 55)
  else none

/-- Value of a decimal digit character. -/
def digVal (c : Char) : Nat := c.toNat - 48

/-- The code point of a `\uXXXX` escape: four hex digits. -/
def parseHex4 : List Char → Option Nat
  | h1 :: h2 :: h3 :: h4 :: _ =>
    match hexVal h1, hexVal h2, hexVal h3, hexVal h4 with
    | some a, some b, some c, some d => some (4096 * a + 256 * b + 16 * c + d)
    | _, _, _, _ => none
  | _ => none

/-- The character named by a single escape character (short escapes). -/
def escCode (e : Char) : Option Char :=
  if e = '"' then some '"'
  else if e = '\\' then some '\\'
  else if e = '/' then some '/'
  else if e = 'b' then some '\x08'
  else if e = 'f' then some '\x0c'
  else if e = 'n' then some '\n'
  else if e = 'r' then some '\r'
  else if e = 't' then some '\t'
  else none

/-- Body of a JSON string literal, up to and excluding the closing
quote; returns the decoded characters and the remaining input. -/
def parseStrBody : List Char → Option (List Char × List Char)
  | [] => none
  | c :: rest =>
    if c = '"' then some ([], rest)
    else if c = '\\' then
      match rest with
      | [] => none
      | e :: rest2 =>
        if e = 'u' then
          match parseHex4 rest2 with
          | some n =>
            (parseStrBody (rest2.drop 4)).map
              (fun p => (Char.ofNat n :: p.1, p.2))
          | none => none
        else
          match escCode e with
          | some d => (parseStrBody rest2).map (fun p => (d :: p.1, p.2))
          | none => none
    else (parseStrBody rest).map (fun p => (c :: p.1, p.2))
termination_by cs => cs.length
decreasing_by
  all_goals simp [List.length_drop]
  all_goals omega

/-- Maximal leading run of decimal digits, as a number. -/
def parseNatNum (cs : List Char) : Option (Nat × List Char) :=
  let ds := cs.takeWhile Char.isDigit
  if ds.isEmpty then none
  else some (ds.foldl (fun a c => 10 * a + digVal c) 0, cs.dropWhile Char.isDigit)

/-- A JSON number (integer form). -/
def parseNum : List Char → Option (JValue × List Char)
  | [] => none
  | c :: rest =>
    if c = '-' then (parseNatNum rest).map (fun p => (.jnum (-(p.1 : Int)), p.2))
    else (parseNatNum (c :: rest)).map (fun p => (.jnum ((p.1 : Int)), p.2))

/-- Expect the given literal characters as a prefix. -/
def expectChars : List Char → List Char → Option (List Char)
  | [], cs => some cs
  | p :: ps, c :: cs => if c = p then expectChars ps cs else none
  | _ :: _, [] => none

mutual

/-- Fuel-indexed JSON value parser (no surrounding whitespace, numbers
in integer form — exact on the image of `printV`). -/
def parseV : Nat → List Char → Option (JValue × List Char)
  | 0, _ => none
  | fuel + 1, cs =>
    match cs with
    | [] => none
    | c :: rest =>
      if c = 'n' then (expectChars ['u', 'l', 'l'] rest).map (fun r => (.jnull, r))
      else if c = 't' then (expectChars ['r', 'u', 'e'] rest).map (fun r => (.jbool true, r))
      else if c = 'f' then (expectChars ['a', 'l', 's', 'e'] rest).map (fun r => (.jbool false, r))
      else if c = '"' then (parseStrBody rest).map (fun p => (.jstr ⟨p.1⟩, p.2))
      else if c = '[' then (parseItems0 fuel rest).map (fun p => (.jarr p.1, p.2))
      else if c = '\x7b' then (parseMembers0 fuel rest).map (fun p => (.jobj p.1, p.2))
      else if c = '-' ∨ c.isDigit then parseNum (c :: rest)
      else none

/-- Array tail right after `[`: a closing bracket or a first element. -/
def parseItems0 : Nat → List Char → Option (List JValue × List Char)
  | 0, _ => none
  | _ + 1, [] => none
  | fuel + 1, c :: rest =>
    if c = ']' then some ([], rest)
    else
      (parseV fuel (c :: rest)).bind fun p =>
        match p.2 with
        | [] => none
        | s :: rest2 =>
          if s = ',' then (parseItems1 fuel rest2).map (fun q => (p.1 :: q.1, q.2))
          else if s = ']' then some ([p.1], rest2)
          else none

/-- Array tail right after a comma: one element then more. -/
def parseItems1 : Nat → List Char → Option (List JValue × List Char)
  | 0, _ => none
  | fuel + 1, cs =>
    (parseV fuel cs).bind fun p =>
      match p.2 with
      | [] => none
      | s :: rest2 =>
        if s = ',' then (parseItems1 fuel rest2).map (fun q => (p.1 :: q.1, q.2))
        else if s = ']' then some ([p.1], rest2)
        else none

/-- Object tail right after its opening brace: a closing brace or a
first member. -/
def parseMembers0 : Nat → List Char → Option (List (String × JValue) × List Char)
  | 0, _ => none
  | _ + 1, [] => none
  | fuel + 1, c :: rest =>
    if c = '\x7d' then some ([], rest)
    else parseMembers1 fuel (c :: rest)

/-- One `"key":value` member then either a comma and more members or the
closing brace. -/
def parseMembers1 : Nat → List Char → Option (List (String × JValue) × List Char)
  | 0, _ => none
  | _ + 1, [] => none
  | fuel + 1, c :: rest =>
    if c = '"' then
      (parseStrBody rest).bind fun pk =>
        match pk.2 with
        | [] => none
        | s2 :: rest2 =>
          if s2 = ':' then
            (parseV fuel rest2).bind fun pv =>
              match pv.2 with
              | [] => none
              | s3 :: rest3 =>
                if s3 = ',' then
                  (parseMembers1 fuel rest3).map
                    (fun q => ((⟨pk.1⟩, pv.1) :: q.1, q.2))
                else if s3 = '\x7d' then some ([(⟨pk.1⟩, pv.1)], rest3)
                else none
          else none
    else none

end

/-- True when the input does not continue with a decimal digit (so a
preceding number cannot be extended). -/
def headNotDigit : List Char → Bool
  | [] => true
  | c :: _ => !c.isDigit

/-- Model of `JSON.parse` (integer numbers, no surrounding whitespace;
exact on the output of `jsonStringify`): the whole input must parse as
one value. The fuel bound suffices for any value whose rendering fits
in the input. -/
def jsonParse (s : String) : Option JValue :=
  match parseV (2 * s.data.length + 1) s.data with
  | some (v, []) => some v
  | _ => none

mutual

/-- Parser-fuel measure of a value (independent of leaf payloads). -/
def jsize : JValue → Nat
  | .jnull => 1
  | .jbool _ => 1
  | .jnum _ => 1
  | .jstr _ => 1
  | .jarr xs => 2 + jsizeL xs
  | .jobj fs => 3 + jsizeF fs

/-- Fuel measure of array elements. -/
def jsizeL : List JValue → Nat
  | [] => 0
  | x :: xs => 1 + jsize x + jsizeL xs

/-- Fuel measure of object members. -/
def jsizeF : List (String × JValue) → Nat
  | [] => 0
  | kv :: fs => 1 + jsize kv.2 + jsizeF fs

end

/-- The message of a rejected request, if any. -/
def ReqResult.errMessage : ReqResult → Option String
  | .success _ => none
  | .failure e => some e.message

/-- The message of a rejected HTTP outcome, if any. -/
def HttpOutcome.errMessage : HttpOutcome → Option String
  | .ok _ => none
  | .err e => some e.message

/-- The spec's error-message priority: server `detail`, then server
`message`, then the transport message, then the generic fallback. -/
def specPriorityMsg (e : AxiosErr) (fallback : String) : String :=
  jsToStringO
    (jsOr (jsOr (jsOr (e.data.bind (·.getF "detail"))
                      (e.data.bind (·.getF "message")))
                (if e.message = "" then none else some (.jstr e.message)))
          (some (.jstr fallback)))

/-- Message priority with server `message` before server `detail`
(what the `signUp` catch block actually implements). -/
def msgFirstPriorityMsg (e : AxiosErr) (fallback : String) : String :=
  jsToStringO
    (jsOr (jsOr (jsOr (e.data.bind (·.getF "message"))
                      (e.data.bind (·.getF "detail")))
                (if e.message = "" then none else some (.jstr e.message)))
          (some (.jstr fallback)))

/-- The spec's reading of where the approval flag is read from:
`is_active` from the top-level response or, when absent (or JSON null)
there, from the nested user profile. -/
def specIsActive (data : JValue) : Option JValue :=
  match data.getF "is_active" with
  | none => (loginUserData data).getF "is_active"
  | some .jnull => (loginUserData data).getF "is_active"
  | some v => some v

/-- A fresh world: empty session, empty storage, no refresh calls. -/
def w0 : World := ⟨emptyState, emptyStore, 0⟩

/-- The login response of the concrete login scenario. -/
def c7user : JValue :=
  .jobj [("username", .jstr "a"), ("role", .jstr "student"), ("is_active", .jbool true)]

/-- Top-level response of the concrete login scenario. -/
def c7data : JValue := .jobj [("access_token", .jstr "t1"), ("user", c7user)]

/-- A server that rejects the first attempt with one 401 body and the
retried attempt (marked config) with a different 401 body. -/
def c1send (cfg : Config) : HttpOutcome :=
  if cfg.retry then .err ⟨some 401, some (.jstr "still expired"), "fail2"⟩
  else .err ⟨some 401, some (.jstr "expired"), "fail1"⟩

/-- A refresh-endpoint response carrying a fresh token. -/
def c1refreshOk : HttpOutcome := .ok (.jobj [("access_token", .jstr "t2")])

/-- Login response that is approved but names no role or username. -/
def c9data : JValue := .jobj [("access_token", .jstr "t1"), ("is_active", .jbool true)]

/-- A world whose storage still holds a `role` from an earlier session. -/
def c9w : World := ⟨emptyState, { emptyStore with role := some "teacher" }, 0⟩

/-- A rejection whose server body carries both a `detail` and a
`message` field. -/
def c8err : AxiosErr :=
  ⟨some 422, some (.jobj [("detail", .jstr "D"), ("message", .jstr "M")]), "transport"⟩

/-! ## General lemmas about the operations -/

/-- Both branches of `logout` leave the same world: state and storage
cleared, the refresh counter untouched. -/
theorem logout_world (n : HttpOutcome) (w : World) :
    (logout n w).1 = { w with state := emptyState, store := emptyStore } := by
  unfold logout
  split <;> (dsimp only; split <;> rfl)

/-- Every run of `refreshAccessToken` makes exactly one call to the
refresh endpoint. -/
theorem refresh_increments (o : HttpOutcome) (dec : String → Option JValue)
    (ln : HttpOutcome) (w : World) :
    (refreshAccessToken o dec ln w).1.refreshCalls = w.refreshCalls + 1 := by
  unfold refreshAccessToken
  cases o with
  | err e => rw [logout_world]
  | ok d =>
    dsimp only
    split
    · rfl
    · rw [logout_world]

/-- With the `_retry` marker already set, the interceptor never
refreshes: the response is passed through and the world is unchanged. -/
theorem runRequest_retry_marked (send : Config → HttpOutcome)
    (ro : HttpOutcome) (dec : String → Option JValue) (ln : HttpOutcome)
    (cfg : Config) (w : World) (h : cfg.retry = true) :
    runRequest send ro dec ln cfg w =
      (w, match send cfg with
          | .ok d => .success d
          | .err e => .failure e) := by
  rw [runRequest]
  cases hs : send cfg with
  | ok d => rfl
  | err e => simp [h]

/-- `String(v)` of a string value is the string itself. -/
theorem jsToStringO_jstr (s : String) : jsToStringO (some (.jstr s)) = s := by
  simp [jsToStringO, jsToString]

/-- A thrown `Error` with a nonempty message surfaces that message. -/
theorem loginErrMsg_jsError (m : String) (h : m ≠ "") :
    loginErrMsg (jsError m) = m := by
  simp [loginErrMsg, jsError, jsOr, truthyO, JValue.truthy, h, jsToStringO,
    jsToString]

/-! ## Claim theorems -/

/-- C3: for every login response, the computed `approved` flag is true
iff the `is_active` field — read from the top level or, when absent (or
null) there, from the nested user profile — is the boolean `true` or the
string `"true"`; when `is_active` is absent at both levels, `approved`
is false. -/
theorem login_approved_iff_is_active_true (data : JValue) :
    (loginIsApproved data = true ↔
      (specIsActive data = some (.jbool true) ∨
       specIsActive data = some (.jstr "true"))) ∧
    (data.getF "is_active" = none →
      (loginUserData data).getF "is_active" = none →
      loginIsApproved data = false) := by
  have hraw : loginIsActiveRaw data = specIsActive data := by
    unfold loginIsActiveRaw nullish specIsActive
    rcases data.getF "is_active" with _ | v
    · rfl
    · cases v <;> rfl
  constructor
  · unfold loginIsApproved
    rw [hraw]
    rcases h : specIsActive data with _ | v
    · simp
    · cases v with
      | jbool b => cases b <;> simp
      | jstr s =>
        constructor
        · intro hs
          right
          have : s = "true" := by simpa using hs
          rw [this]
        · intro hs
          rcases hs with hs | hs <;> simp at hs
          simp [hs]
      | jnull => simp
      | jnum n => simp
      | jarr xs => simp
      | jobj fs => simp
  · intro h1 h2
    unfold loginIsApproved loginIsActiveRaw
    rw [h1, h2]
    rfl

/-- C3 witness: a response with `is_active` absent at both levels is not
approved, and the boolean/string readings are accepted. -/
theorem login_approved_iff_is_active_true_holds :
    loginIsApproved (.jobj []) = false :=
  (login_approved_iff_is_active_true (.jobj [])).2 rfl rfl

/-- C4: an unapproved login fails with exactly the error
`"Not approved yet"` and leaves the whole world — in-memory session
state and durable storage — untouched. -/
theorem login_unapproved_no_mutation (w : World) (roleParam : Option JValue)
    (data : JValue) (h : loginIsApproved data = false) :
    login roleParam (.ok data) w = (w, .error "Not approved yet") := by
  unfold login
  dsimp only
  rw [if_neg (by simp [h]), loginErrMsg_jsError _ (by decide)]

/-- C4 witness: the unapproved-login theorem at a concrete response with
`is_active` absent everywhere. -/
theorem login_unapproved_no_mutation_holds :
    login none (.ok (.jobj [])) w0 = (w0, .error "Not approved yet") :=
  login_unapproved_no_mutation w0 none (.jobj []) rfl

/-- C5: `logout` sets the in-memory session to `Unauthenticated` and
clears all four storage keys, and both clears happen before the network
logout call is attempted — for every outcome of that network call. -/
theorem logout_clears_before_network (netOutcome : HttpOutcome) (w : World) :
    (logout netOutcome w).1.state = emptyState ∧
    (logout netOutcome w).1.store = emptyStore ∧
    ∃ rest, (logout netOutcome w).2 =
      LEvent.clearedState :: LEvent.clearedStorage :: rest := by
  refine ⟨by rw [logout_world], by rw [logout_world], ?_⟩
  unfold logout
  split <;> (dsimp only; split)
  · exact ⟨_, rfl⟩
  · exact ⟨_, rfl⟩
  · exact ⟨_, rfl⟩
  · exact ⟨_, rfl⟩

/-- C6: a refresh whose response carries no truthy `access_token`, or
that fails at the network level, forces a logout: state and storage are
cleared, `isAuthenticated()` is false, and `null` is returned. -/
theorem refresh_failure_forces_logout (outcome : HttpOutcome)
    (dec : String → Option JValue) (ln : HttpOutcome) (w : World)
    (h : ∀ d, outcome = .ok d → truthyO (d.getF "access_token") = false) :
    (refreshAccessToken outcome dec ln w).1.state = emptyState ∧
    (refreshAccessToken outcome dec ln w).1.store = emptyStore ∧
    isAuthenticated (refreshAccessToken outcome dec ln w).1.state = false ∧
    (refreshAccessToken outcome dec ln w).2 = none := by
  have hw : (refreshAccessToken outcome dec ln w).1 =
      { w with refreshCalls := w.refreshCalls + 1,
               state := emptyState, store := emptyStore } ∧
      (refreshAccessToken outcome dec ln w).2 = none := by
    unfold refreshAccessToken
    cases outcome with
    | err e => rw [logout_world]; exact ⟨rfl, rfl⟩
    | ok d =>
      dsimp only
      rw [if_neg]
      · rw [logout_world]; exact ⟨rfl, rfl⟩
      · rw [h d rfl]; simp
  rw [hw.1, hw.2]
  exact ⟨rfl, rfl, rfl, rfl⟩

/-- C6 witness: the forced-logout theorem at a concrete empty refresh
response. -/
theorem refresh_failure_forces_logout_holds :
    (refreshAccessToken (.ok (.jobj [])) (fun _ => none) (.ok .jnull) w0).1.state =
      emptyState ∧
    (refreshAccessToken (.ok (.jobj [])) (fun _ => none) (.ok .jnull) w0).1.store =
      emptyStore ∧
    isAuthenticated
      (refreshAccessToken (.ok (.jobj [])) (fun _ => none) (.ok .jnull) w0).1.state =
      false ∧
    (refreshAccessToken (.ok (.jobj [])) (fun _ => none) (.ok .jnull) w0).2 = none :=
  refresh_failure_forces_logout (.ok (.jobj [])) (fun _ => none) (.ok .jnull) w0
    (fun d hd => by cases hd; rfl)

/-- C7: the concrete login scenario: `login(email, password, "student")`
against `{access_token:"t1", user:{username:"a", role:"student",
is_active:true}}` succeeds and publishes exactly the expected session,
with `isAuthenticated()` true. -/
theorem login_student_scenario :
    (login (some (.jstr "student")) (.ok c7data) w0).1.state =
      ⟨some (.jstr "t1"), some c7user, some (.jstr "student"), some (.jstr "a")⟩ ∧
    isAuthenticated (login (some (.jstr "student")) (.ok c7data) w0).1.state = true ∧
    (login (some (.jstr "student")) (.ok c7data) w0).2 = .ok c7data :=
  ⟨rfl, rfl, rfl⟩

/-- C10: a refresh that obtains a truthy string token which fails to
decode updates `accessToken` in state and storage, leaves the `user`
field untouched in both, and still resolves with the new token. -/
theorem refresh_undecodable_token_frame (w : World)
    (dec : String → Option JValue) (ln : HttpOutcome) (data : JValue)
    (t : String) (hf : data.getF "access_token" = some (.jstr t))
    (ht : t ≠ "") (hd : dec t = none) :
    (refreshAccessToken (.ok data) dec ln w).1.state.user = w.state.user ∧
    (refreshAccessToken (.ok data) dec ln w).1.store.user = w.store.user ∧
    (refreshAccessToken (.ok data) dec ln w).1.state.accessToken = some (.jstr t) ∧
    (refreshAccessToken (.ok data) dec ln w).1.store.accessToken = some t ∧
    (refreshAccessToken (.ok data) dec ln w).1.state.role = w.state.role ∧
    (refreshAccessToken (.ok data) dec ln w).2 = some (.jstr t) := by
  unfold refreshAccessToken
  dsimp only
  rw [hf]
  rw [if_pos]
  · dsimp only [Option.bind, decodeToken]
    rw [hd]
    exact ⟨rfl, rfl, rfl, by rw [jsToStringO_jstr], rfl, rfl⟩
  · simp [truthyO, JValue.truthy, ht]

/-- C10 witness: the frame theorem at a concrete token the decoder
rejects. -/
theorem refresh_undecodable_token_frame_holds :
    (refreshAccessToken (.ok (.jobj [("access_token", .jstr "opaque")]))
        (fun _ => none) (.ok .jnull) w0).1.state.user = w0.state.user ∧
    (refreshAccessToken (.ok (.jobj [("access_token", .jstr "opaque")]))
        (fun _ => none) (.ok .jnull) w0).2 = some (.jstr "opaque") := by
  have h := refresh_undecodable_token_frame w0 (fun _ => none) (.ok .jnull)
    (.jobj [("access_token", .jstr "opaque")]) "opaque" rfl (by decide) rfl
  exact ⟨h.1, h.2.2.2.2.2⟩

/-- C2 counterexample: a refresh that completes successfully (the new
token is returned) but whose token fails to decode leaves the session
holding a truthy `accessToken` with no `user` — one of the pair without
the other after a completed operation. -/
theorem refresh_leaves_token_without_user :
    (refreshAccessToken (.ok (.jobj [("access_token", .jstr "tok")])) (fun _ => none)
        (.ok .jnull) w0).2 = some (.jstr "tok") ∧
    truthyO (refreshAccessToken (.ok (.jobj [("access_token", .jstr "tok")]))
        (fun _ => none) (.ok .jnull) w0).1.state.accessToken = true ∧
    (refreshAccessToken (.ok (.jobj [("access_token", .jstr "tok")])) (fun _ => none)
        (.ok .jnull) w0).1.state.user = none := ⟨rfl, rfl, rfl⟩

/-- C2 amended: `isAuthenticated()` is true iff both `accessToken` and
`user` are truthy (a pure query over the current state), and `logout`
always leaves both absent; the both-or-neither invariant does not hold
after every completed operation (see the counterexample). -/
theorem isAuthenticated_iff_both_present :
    (∀ s : SessionState,
      isAuthenticated s = true ↔
        (truthyO s.accessToken = true ∧ truthyO s.user = true)) ∧
    (∀ (n : HttpOutcome) (w : World),
      (logout n w).1.state.accessToken = none ∧ (logout n w).1.state.user = none) := by
  constructor
  · intro s
    simp [isAuthenticated, Bool.and_eq_true]
  · intro n w
    rw [logout_world]
    exact ⟨rfl, rfl⟩

/-- C8 counterexample: when the server body carries both `detail` and
`message`, `signUp` surfaces the `message` field, not the `detail` field
the spec's priority (detail first) would choose. -/
theorem signup_message_over_detail :
    signUp (.err c8err) = .error "M" ∧
    specPriorityMsg c8err "Signup failed" = "D" ∧
    ("M" : String) ≠ "D" := by
  have h : signUpErrMsg c8err = "M" := by
    simp [signUpErrMsg, c8err, JValue.getF, List.find?, jsOr, truthyO, JValue.truthy,
      jsToStringO_jstr]
  refine ⟨by simp [signUp, h], ?_, by decide⟩
  simp [specPriorityMsg, c8err, JValue.getF, List.find?, jsOr, truthyO, JValue.truthy,
    jsToStringO_jstr]

/-- C8 amended: a failed `login` raises the message chosen by the
priority server `detail` → server `message` → transport message →
generic fallback, while a failed `signUp` checks server `message`
before server `detail` (then transport message, then fallback). -/
theorem auth_error_message_priority (e : AxiosErr) :
    (signUp (.err e) = .error (msgFirstPriorityMsg e "Signup failed")) ∧
    (∀ (roleParam : Option JValue) (w : World),
      login roleParam (.err e) w = (w, .error (specPriorityMsg e "Error logging in"))) :=
  ⟨rfl, fun _ _ => rfl⟩

/-- C1 amended: (i) one intercepted request triggers at most one refresh
call; (ii) a request whose first attempt is a 401, whose refresh
succeeds, and whose retried attempt is rejected again fails after
exactly one refresh call, surfacing the retried attempt's rejection
(equal to the original only when the server rejects both attempts
identically); (iii) when the refresh fails, the original 401 rejection
is surfaced unchanged. -/
theorem retry_once_protocol :
    (∀ (send : Config → HttpOutcome) (ro : HttpOutcome)
        (dec : String → Option JValue) (ln : HttpOutcome) (cfg : Config) (w : World),
        (runRequest send ro dec ln cfg w).1.refreshCalls ≤ w.refreshCalls + 1) ∧
    (∀ (send : Config → HttpOutcome) (ro : HttpOutcome)
        (dec : String → Option JValue) (ln : HttpOutcome) (w : World)
        (h0 : Option String) (e1 e2 : AxiosErr),
        send ⟨false, h0⟩ = .err e1 → e1.status = some 401 →
        truthyO (refreshAccessToken ro dec ln w).2 = true →
        send ⟨true, some ("Bearer " ++ jsToStringO (refreshAccessToken ro dec ln w).2)⟩ =
          .err e2 →
        e2.status = some 401 →
        runRequest send ro dec ln ⟨false, h0⟩ w =
          ((refreshAccessToken ro dec ln w).1, .failure e2) ∧
        (runRequest send ro dec ln ⟨false, h0⟩ w).1.refreshCalls = w.refreshCalls + 1) ∧
    (∀ (send : Config → HttpOutcome) (ro : HttpOutcome)
        (dec : String → Option JValue) (ln : HttpOutcome) (w : World)
        (h0 : Option String) (e1 : AxiosErr),
        send ⟨false, h0⟩ = .err e1 → e1.status = some 401 →
        truthyO (refreshAccessToken ro dec ln w).2 = false →
        runRequest send ro dec ln ⟨false, h0⟩ w =
          ((refreshAccessToken ro dec ln w).1, .failure e1)) := by
  refine ⟨?_, ?_, ?_⟩
  · intro send ro dec ln cfg w
    rw [runRequest]
    cases hs : send cfg with
    | ok d => dsimp only; omega
    | err e =>
      dsimp only
      by_cases hc : e.status = some 401 ∧ cfg.retry = false
      · rw [dif_pos hc]
        by_cases ht : truthyO (refreshAccessToken ro dec ln w).2 = true
        · rw [if_pos ht, runRequest_retry_marked _ _ _ _ _ _ rfl]
          dsimp only
          rw [refresh_increments]
        · rw [if_neg ht]
          dsimp only
          rw [refresh_increments]
      · rw [dif_neg hc]
        dsimp only
        omega
  · intro send ro dec ln w h0 e1 e2 he1 hst htr he2 _hst2
    have hmain : runRequest send ro dec ln ⟨false, h0⟩ w =
        ((refreshAccessToken ro dec ln w).1, .failure e2) := by
      rw [runRequest, he1]
      dsimp only
      rw [dif_pos ⟨hst, rfl⟩]
      rw [if_pos htr, runRequest_retry_marked _ _ _ _ _ _ rfl, he2]
    exact ⟨hmain, by rw [hmain]; dsimp only; rw [refresh_increments]⟩
  · intro send ro dec ln w h0 e1 he1 hst htr
    rw [runRequest, he1]
    dsimp only
    rw [dif_pos ⟨hst, rfl⟩]
    rw [if_neg (by rw [htr]; exact Bool.false_ne_true)]

/-- C1 witness: the retry-once protocol applied to the concrete server
`c1send`, whose two attempts are rejected with distinct 401 bodies and
whose refresh succeeds. -/
theorem retry_once_protocol_witness :
    runRequest c1send c1refreshOk (fun _ => none) (.ok .jnull) ⟨false, none⟩ w0 =
      ((refreshAccessToken c1refreshOk (fun _ => none) (.ok .jnull) w0).1,
        .failure ⟨some 401, some (.jstr "still expired"), "fail2"⟩) ∧
    (runRequest c1send c1refreshOk (fun _ => none) (.ok .jnull)
        ⟨false, none⟩ w0).1.refreshCalls = w0.refreshCalls + 1 :=
  retry_once_protocol.2.1 c1send c1refreshOk (fun _ => none) (.ok .jnull) w0 none
    ⟨some 401, some (.jstr "expired"), "fail1"⟩
    ⟨some 401, some (.jstr "still expired"), "fail2"⟩ rfl rfl rfl rfl rfl

/-- C1 counterexample: with distinct 401 bodies on the two attempts and
a successful refresh, the caller receives the retried attempt's error
(`"fail2"`), not the original 401-derived error (`"fail1"`) — exactly
one refresh call is made. -/
theorem retry_surfaces_second_error :
    ReqResult.errMessage (runRequest c1send c1refreshOk (fun _ => none) (.ok .jnull)
        ⟨false, none⟩ w0).2 = some "fail2" ∧
    HttpOutcome.errMessage (c1send ⟨false, none⟩) = some "fail1" ∧
    ("fail2" : String) ≠ "fail1" ∧
    (runRequest c1send c1refreshOk (fun _ => none) (.ok .jnull)
        ⟨false, none⟩ w0).1.refreshCalls = 1 := by
  have hmain : runRequest c1send c1refreshOk (fun _ => none) (.ok .jnull)
      ⟨false, none⟩ w0 =
      ((refreshAccessToken c1refreshOk (fun _ => none) (.ok .jnull) w0).1,
        .failure ⟨some 401, some (.jstr "still expired"), "fail2"⟩) := by
    rw [runRequest]
    have hs : c1send ⟨false, none⟩ =
        .err ⟨some 401, some (.jstr "expired"), "fail1"⟩ := rfl
    rw [hs]
    dsimp only
    rw [dif_pos ⟨rfl, rfl⟩]
    rw [if_pos (show truthyO (refreshAccessToken c1refreshOk (fun _ => none)
      (.ok .jnull) w0).2 = true from rfl)]
    rw [runRequest_retry_marked _ _ _ _ _ _ rfl]
    rfl
  rw [hmain]
  refine ⟨rfl, rfl, by decide, ?_⟩
  dsimp only
  rw [refresh_increments]
  rfl

/-! ## JSON round-trip development (for the save/load claim) -/


theorem hexVal_hexDig (d : Nat) (h : d < 16) : hexVal (hexDig d) = some d := by
  interval_cases d <;> rfl

theorem digChar_isDigit (d : Nat) (h : d < 10) : (digChar d).isDigit = true := by
  interval_cases d <;> rfl

theorem digVal_digChar (d : Nat) (h : d < 10) : digVal (digChar d) = d := by
  interval_cases d <;> rfl

theorem parseStrBody_quote (rest : List Char) :
    parseStrBody ('"' :: rest) = some ([], rest) := by
  rw [parseStrBody.eq_def]
  simp

theorem parseStrBody_lit (c : Char) (rest : List Char)
    (h1 : c ≠ '"') (h2 : c ≠ '\\') :
    parseStrBody (c :: rest) =
      (parseStrBody rest).map (fun p => (c :: p.1, p.2)) := by
  rw [parseStrBody.eq_def]
  cases rest <;> simp [h1, h2]

theorem parseStrBody_esc (e : Char) (d : Char) (rest2 : List Char)
    (hu : e ≠ 'u') (hc : escCode e = some d) :
    parseStrBody ('\\' :: e :: rest2) =
      (parseStrBody rest2).map (fun p => (d :: p.1, p.2)) := by
  rw [parseStrBody.eq_def]
  simp [hu, hc]

theorem parseStrBody_u (h3 h4 : Char) (a b : Nat) (rest3 : List Char)
    (ha : hexVal h3 = some a) (hb : hexVal h4 = some b) :
    parseStrBody ('\\' :: 'u' :: '0' :: '0' :: h3 :: h4 :: rest3) =
      (parseStrBody rest3).map
        (fun p => (Char.ofNat (16 * a + b) :: p.1, p.2)) := by
  have hhex : parseHex4 ('0' :: '0' :: h3 :: h4 :: rest3) = some (16 * a + b) := by
    rw [parseHex4]
    rw [show hexVal '0' = some 0 from rfl, ha, hb]
    norm_num
  rw [parseStrBody.eq_def]
  simp [hhex]

theorem parseStrBody_escStr (cs : List Char) (rest : List Char) :
    parseStrBody (escStr cs ++ '"' :: rest) = some (cs, rest) := by
  induction cs with
  | nil =>
    show parseStrBody ('"' :: rest) = some ([], rest)
    exact parseStrBody_quote rest
  | cons c cs ih =>
    show parseStrBody ((escChar c ++ escStr cs) ++ '"' :: rest) = _
    unfold escChar
    by_cases h1 : c = '"'
    · subst h1
      rw [if_pos rfl]
      simp only [List.cons_append, List.nil_append]
      rw [parseStrBody_esc '"' '"' _ (by decide) rfl, ih]
      rfl
    · rw [if_neg h1]
      by_cases h2 : c = '\\'
      · subst h2
        rw [if_pos rfl]
        simp only [List.cons_append, List.nil_append]
        rw [parseStrBody_esc '\\' '\\' _ (by decide) rfl, ih]
        rfl
      · rw [if_neg h2]
        by_cases h3 : c.toNat < 32
        · rw [if_pos h3]
          simp only [List.cons_append, List.nil_append]
          rw [parseStrBody_u (hexDig (c.toNat / 16)) (hexDig (c.toNat % 16))
            (c.toNat / 16) (c.toNat % 16) _
            (hexVal_hexDig _ (by omega)) (hexVal_hexDig _ (by omega)), ih]
          have h4 : 16 * (c.toNat / 16) + c.toNat % 16 = c.toNat := by omega
          rw [h4, Char.ofNat_toNat]
          rfl
        · rw [if_neg h3]
          simp only [List.cons_append, List.nil_append]
          rw [parseStrBody_lit c _ h1 h2, ih]
          rfl


/-- Every character `natChars` produces is a decimal digit. -/
theorem natChars_digits (n : Nat) : ∀ c ∈ natChars n, c.isDigit = true := by
  induction n using Nat.strong_induction_on with
  | _ n ih =>
    rw [natChars]
    split
    · intro c hc
      simp at hc
      subst hc
      exact digChar_isDigit n (by omega)
    · intro c hc
      rw [List.mem_append] at hc
      rcases hc with hc | hc
      · exact ih (n / 10) (Nat.div_lt_self (by omega) (by omega)) c hc
      · simp at hc
        subst hc
        exact digChar_isDigit (n % 10) (by omega)

theorem natChars_ne_nil (n : Nat) : natChars n ≠ [] := by
  rw [natChars]
  split
  · simp
  · simp

/-- Folding the digit characters of `n` recovers `n`. -/
theorem foldl_digits_natChars (n : Nat) :
    (natChars n).foldl (fun a c => 10 * a + digVal c) 0 = n := by
  induction n using Nat.strong_induction_on with
  | _ n ih =>
    rw [natChars]
    split
    · next h =>
      simp [digVal_digChar n (by omega)]
    · next h =>
      rw [List.foldl_append]
      rw [ih (n / 10) (Nat.div_lt_self (by omega) (by omega))]
      simp [digVal_digChar (n % 10) (by omega)]
      omega

/-- Characters satisfying the predicate followed by a non-matching head
split cleanly under `takeWhile`/`dropWhile`. -/
theorem span_append_all (p : Char → Bool) (l1 l2 : List Char)
    (h1 : ∀ c ∈ l1, p c = true)
    (h2 : ∀ c, l2.head? = some c → p c = false) :
    (l1 ++ l2).takeWhile p = l1 ∧ (l1 ++ l2).dropWhile p = l2 := by
  induction l1 with
  | nil =>
    simp only [List.nil_append]
    cases l2 with
    | nil => simp
    | cons c l => simp [List.takeWhile, List.dropWhile, h2 c rfl]
  | cons c l1 ih =>
    have hc : p c = true := h1 c (by simp)
    have ih2 := ih (fun d hd => h1 d (by simp [hd]))
    simp [List.takeWhile, List.dropWhile, hc, ih2.1, ih2.2]

/-- A printed natural number parses back, when the continuation does not
begin with a digit. -/
theorem parseNatNum_natChars (n : Nat) (rest : List Char)
    (hr : headNotDigit rest = true) :
    parseNatNum (natChars n ++ rest) = some (n, rest) := by
  have h2 : ∀ c, rest.head? = some c → Char.isDigit c = false := by
    intro c hc
    cases rest with
    | nil => exact absurd hc (by simp)
    | cons d l =>
      have hd : (!d.isDigit) = true := hr
      have : d = c := by simpa using hc
      subst this
      simpa using hd
  have hspan := span_append_all Char.isDigit (natChars n) rest (natChars_digits n) h2
  unfold parseNatNum
  rw [hspan.1, hspan.2]
  rw [if_neg (by simp [natChars_ne_nil n])]
  rw [foldl_digits_natChars]

/-- Digits are distinct from all the structural characters the parser
dispatches on. -/
theorem isDigit_ne_special (c : Char) (h : c.isDigit = true) :
    c ≠ '-' ∧ c ≠ 'n' ∧ c ≠ 't' ∧ c ≠ 'f' ∧ c ≠ '"' ∧ c ≠ '[' ∧
    c ≠ '\x7b' ∧ c ≠ ']' ∧ c ≠ ',' ∧ c ≠ '\x7d' ∧ c ≠ ':' := by
  refine ⟨?_, ?_, ?_, ?_, ?_, ?_, ?_, ?_, ?_, ?_, ?_⟩ <;>
    (intro hc; subst hc; exact absurd h (by decide))

/-- A printed integer parses back, when the continuation does not begin
with a digit. -/
theorem parseNum_intChars (n : Int) (rest : List Char)
    (hr : headNotDigit rest = true) :
    parseNum (intChars n ++ rest) = some (.jnum n, rest) := by
  unfold intChars
  split
  · next h =>
    simp only [List.cons_append]
    rw [parseNum]
    rw [if_pos rfl]
    rw [parseNatNum_natChars n.natAbs rest hr]
    simp only [Option.map_some']
    have hn : (-(↑(n.natAbs) : Int)) = n := by omega
    rw [hn]
  · next h =>
    obtain ⟨c, cs, hcons⟩ : ∃ c cs, natChars n.toNat = c :: cs := by
      cases hx : natChars n.toNat with
      | nil => exact absurd hx (natChars_ne_nil _)
      | cons c cs => exact ⟨c, cs, rfl⟩
    have hdig : c.isDigit = true := natChars_digits n.toNat c (by rw [hcons]; simp)
    rw [hcons]
    simp only [List.cons_append]
    rw [parseNum]
    rw [if_neg (isDigit_ne_special c hdig).1]
    rw [show c :: (cs ++ rest) = (c :: cs) ++ rest from rfl, ← hcons]
    rw [parseNatNum_natChars n.toNat rest hr]
    simp only [Option.map_some']
    have hn : ((↑(n.toNat) : Int)) = n := by omega
    rw [hn]


theorem expectChars_prefix (ps rest : List Char) :
    expectChars ps (ps ++ rest) = some rest := by
  induction ps with
  | nil => rfl
  | cons p ps ih =>
    rw [List.cons_append, expectChars, if_pos rfl, ih]

theorem parseV_n (f : Nat) (cs : List Char) :
    parseV (f + 1) ('n' :: cs) =
      (expectChars ['u', 'l', 'l'] cs).map (fun r => (JValue.jnull, r)) := by
  rw [parseV]
  rw [if_pos rfl]

theorem parseV_t (f : Nat) (cs : List Char) :
    parseV (f + 1) ('t' :: cs) =
      (expectChars ['r', 'u', 'e'] cs).map (fun r => (JValue.jbool true, r)) := by
  rw [parseV]
  rw [if_neg (by decide), if_pos rfl]

theorem parseV_f (f : Nat) (cs : List Char) :
    parseV (f + 1) ('f' :: cs) =
      (expectChars ['a', 'l', 's', 'e'] cs).map (fun r => (JValue.jbool false, r)) := by
  rw [parseV]
  rw [if_neg (by decide), if_neg (by decide), if_pos rfl]

theorem parseV_quote (f : Nat) (cs : List Char) :
    parseV (f + 1) ('"' :: cs) =
      (parseStrBody cs).map (fun p => (JValue.jstr ⟨p.1⟩, p.2)) := by
  rw [parseV]
  rw [if_neg (by decide), if_neg (by decide), if_neg (by decide), if_pos rfl]

theorem parseV_bracket (f : Nat) (cs : List Char) :
    parseV (f + 1) ('[' :: cs) =
      (parseItems0 f cs).map (fun p => (JValue.jarr p.1, p.2)) := by
  rw [parseV]
  rw [if_neg (by decide), if_neg (by decide), if_neg (by decide),
    if_neg (by decide), if_pos rfl]

theorem parseV_brace (f : Nat) (cs : List Char) :
    parseV (f + 1) ('\x7b' :: cs) =
      (parseMembers0 f cs).map (fun p => (JValue.jobj p.1, p.2)) := by
  rw [parseV]
  rw [if_neg (by decide), if_neg (by decide), if_neg (by decide),
    if_neg (by decide), if_neg (by decide), if_pos rfl]

theorem parseV_num (f : Nat) (c : Char) (cs : List Char)
    (h : c = '-' ∨ c.isDigit = true) :
    parseV (f + 1) (c :: cs) = parseNum (c :: cs) := by
  have hn : c ≠ 'n' := by
    rcases h with rfl | hd
    · decide
    · exact (isDigit_ne_special c hd).2.1
  have ht : c ≠ 't' := by
    rcases h with rfl | hd
    · decide
    · exact (isDigit_ne_special c hd).2.2.1
  have hf : c ≠ 'f' := by
    rcases h with rfl | hd
    · decide
    · exact (isDigit_ne_special c hd).2.2.2.1
  have hq : c ≠ '"' := by
    rcases h with rfl | hd
    · decide
    · exact (isDigit_ne_special c hd).2.2.2.2.1
  have hb : c ≠ '[' := by
    rcases h with rfl | hd
    · decide
    · exact (isDigit_ne_special c hd).2.2.2.2.2.1
  have hB : c ≠ '\x7b' := by
    rcases h with rfl | hd
    · decide
    · exact (isDigit_ne_special c hd).2.2.2.2.2.2.1
  rw [parseV]
  rw [if_neg hn, if_neg ht, if_neg hf, if_neg hq, if_neg hb, if_neg hB, if_pos h]


theorem jsize_pos (v : JValue) : 1 ≤ jsize v := by
  cases v <;> rw [jsize] <;> omega

theorem intChars_cons (n : Int) :
    ∃ c cs, intChars n = c :: cs ∧ (c = '-' ∨ c.isDigit = true) := by
  unfold intChars
  split
  · exact ⟨'-', natChars n.natAbs, rfl, Or.inl rfl⟩
  · obtain ⟨c, cs, hcons⟩ : ∃ c cs, natChars n.toNat = c :: cs := by
      cases hx : natChars n.toNat with
      | nil => exact absurd hx (natChars_ne_nil _)
      | cons c cs => exact ⟨c, cs, rfl⟩
    refine ⟨c, cs, hcons, Or.inr ?_⟩
    exact natChars_digits n.toNat c (by rw [hcons]; simp)

theorem printV_cons (v : JValue) :
    ∃ c cs, printV v = c :: cs ∧
      (c = 'n' ∨ c = 't' ∨ c = 'f' ∨ c = '"' ∨ c = '[' ∨ c = '\x7b' ∨
       c = '-' ∨ c.isDigit = true) := by
  cases v with
  | jnull => exact ⟨'n', _, by rw [printV], by simp⟩
  | jbool b =>
    cases b with
    | true => exact ⟨'t', _, by rw [printV], by simp⟩
    | false => exact ⟨'f', _, by rw [printV], by simp⟩
  | jnum n =>
    obtain ⟨c, cs, hcons, hd⟩ := intChars_cons n
    exact ⟨c, cs, by rw [printV, hcons], by tauto⟩
  | jstr s => exact ⟨'"', _, by rw [printV], by simp⟩
  | jarr xs => exact ⟨'[', _, by rw [printV], by simp⟩
  | jobj fs => exact ⟨'\x7b', _, by rw [printV], by simp⟩

theorem head_ne_delims (c : Char)
    (h : c = 'n' ∨ c = 't' ∨ c = 'f' ∨ c = '"' ∨ c = '[' ∨ c = '\x7b' ∨
      c = '-' ∨ c.isDigit = true) :
    c ≠ ']' ∧ c ≠ '\x7d' ∧ c ≠ ',' ∧ c ≠ ':' := by
  rcases h with rfl | rfl | rfl | rfl | rfl | rfl | rfl | hd
  · exact ⟨by decide, by decide, by decide, by decide⟩
  · exact ⟨by decide, by decide, by decide, by decide⟩
  · exact ⟨by decide, by decide, by decide, by decide⟩
  · exact ⟨by decide, by decide, by decide, by decide⟩
  · exact ⟨by decide, by decide, by decide, by decide⟩
  · exact ⟨by decide, by decide, by decide, by decide⟩
  · exact ⟨by decide, by decide, by decide, by decide⟩
  · have := isDigit_ne_special c hd
    exact ⟨this.2.2.2.2.2.2.2.1, this.2.2.2.2.2.2.2.2.2.1, this.2.2.2.2.2.2.2.2.1,
      this.2.2.2.2.2.2.2.2.2.2⟩


theorem parseItems0_close (g : Nat) (rest : List Char) :
    parseItems0 (g + 1) (']' :: rest) = some ([], rest) := by
  rw [parseItems0, if_pos rfl]

theorem parseItems0_ne_close (g : Nat) (c : Char) (tl : List Char) (h : c ≠ ']') :
    parseItems0 (g + 1) (c :: tl) = parseItems1 (g + 1) (c :: tl) := by
  rw [parseItems0, parseItems1, if_neg h]

theorem parseMembers0_close (g : Nat) (rest : List Char) :
    parseMembers0 (g + 1) ('\x7d' :: rest) = some ([], rest) := by
  rw [parseMembers0, if_pos rfl]

theorem parseMembers0_ne_close (g : Nat) (c : Char) (tl : List Char) (h : c ≠ '\x7d') :
    parseMembers0 (g + 1) (c :: tl) = parseMembers1 g (c :: tl) := by
  rw [parseMembers0, if_neg h]


/-- Round-trip of the fuel-indexed parsers over the printers. -/
theorem parse_print_aux : ∀ fuel : Nat,
    (∀ v rest, jsize v ≤ fuel → headNotDigit rest = true →
      parseV fuel (printV v ++ rest) = some (v, rest)) ∧
    (∀ xs rest, xs ≠ [] → jsizeL xs + 1 ≤ fuel →
      parseItems1 fuel (printElems xs ++ ']' :: rest) = some (xs, rest)) ∧
    (∀ fs rest, fs ≠ [] → jsizeF fs + 1 ≤ fuel →
      parseMembers1 fuel (printFields fs ++ '\x7d' :: rest) = some (fs, rest)) := by
  intro fuel
  induction fuel using Nat.strong_induction_on with
  | _ fuel ih =>
    refine ⟨?_, ?_, ?_⟩
    · -- values
      intro v rest hf hr
      cases fuel with
      | zero => have := jsize_pos v; omega
      | succ f =>
        cases v with
        | jnull =>
          rw [printV]
          simp only [List.cons_append, List.nil_append]
          rw [parseV_n]
          simp [expectChars]
        | jbool b =>
          cases b with
          | true =>
            rw [printV]
            simp only [List.cons_append, List.nil_append]
            rw [parseV_t]
            simp [expectChars]
          | false =>
            rw [printV]
            simp only [List.cons_append, List.nil_append]
            rw [parseV_f]
            simp [expectChars]
        | jnum n =>
          obtain ⟨c, cs, hcons, hd⟩ := intChars_cons n
          rw [printV, hcons]
          simp only [List.cons_append]
          rw [parseV_num f c _ hd]
          rw [show c :: (cs ++ rest) = (c :: cs) ++ rest from rfl, ← hcons]
          exact parseNum_intChars n rest hr
        | jstr s =>
          rw [printV]
          simp only [List.cons_append, List.append_assoc, List.nil_append]
          rw [parseV_quote, parseStrBody_escStr]
          rfl
        | jarr xs =>
          rw [printV]
          simp only [List.cons_append, List.append_assoc, List.nil_append]
          rw [parseV_bracket]
          rw [jsize] at hf
          cases xs with
          | nil =>
            rw [printElems]
            simp only [List.nil_append]
            cases f with
            | zero => omega
            | succ g =>
              rw [parseItems0_close]
              rfl
          | cons x xs =>
            have hxpos := jsize_pos x
            rw [jsizeL] at hf
            cases f with
            | zero => omega
            | succ g =>
              obtain ⟨tl, htl⟩ : ∃ tl, printElems (x :: xs) = printV x ++ tl := by
                cases xs with
                | nil => exact ⟨[], by rw [printElems]; simp⟩
                | cons y ys => exact ⟨',' :: printElems (y :: ys), by rw [printElems]⟩
              obtain ⟨c, ccs, hpcons, hhead⟩ := printV_cons x
              have hne := head_ne_delims c hhead
              have heq : printElems (x :: xs) ++ ']' :: rest =
                  c :: (ccs ++ (tl ++ ']' :: rest)) := by
                rw [htl, hpcons]
                simp [List.append_assoc]
              rw [heq, parseItems0_ne_close g c _ hne.1, ← heq]
              rw [(ih (g + 1) (by omega)).2.1 (x :: xs) rest (by simp)
                (by rw [jsizeL]; omega)]
              rfl
        | jobj fs =>
          rw [printV]
          simp only [List.cons_append, List.append_assoc, List.nil_append]
          rw [parseV_brace]
          rw [jsize] at hf
          cases fs with
          | nil =>
            rw [printFields]
            simp only [List.nil_append]
            cases f with
            | zero => omega
            | succ g =>
              rw [parseMembers0_close]
              rfl
          | cons kv fs =>
            obtain ⟨k, v⟩ := kv
            have hvpos := jsize_pos v
            rw [jsizeF] at hf
            dsimp only at hf
            cases f with
            | zero => omega
            | succ g =>
              obtain ⟨tl2, heq⟩ :
                  ∃ tl2, printFields ((k, v) :: fs) ++ '\x7d' :: rest =
                    '"' :: tl2 := by
                cases fs with
                | nil =>
                  refine ⟨escStr k.data ++ '"' :: ':' :: (printV v ++ '\x7d' :: rest), ?_⟩
                  rw [printFields]
                  simp
                | cons kv2 fs2 =>
                  refine ⟨escStr k.data ++ '"' :: ':' ::
                    (printV v ++ ',' :: (printFields (kv2 :: fs2) ++ '\x7d' :: rest)), ?_⟩
                  rw [printFields]
                  simp
              rw [heq, parseMembers0_ne_close g '"' _ (by decide), ← heq]
              rw [(ih g (by omega)).2.2 ((k, v) :: fs) rest (by simp)
                (by rw [jsizeF]; dsimp only; omega)]
              rfl
    · -- array elements
      intro xs rest hne hcond
      cases fuel with
      | zero => omega
      | succ f =>
        cases xs with
        | nil => exact absurd rfl hne
        | cons x xs =>
          have hxpos := jsize_pos x
          rw [jsizeL] at hcond
          rw [parseItems1]
          cases xs with
          | nil =>
            rw [printElems]
            rw [(ih f (by omega)).1 x (']' :: rest) (by omega) rfl]
            simp only [Option.some_bind]
            simp
          | cons y ys =>
            have hypos := jsize_pos y
            rw [jsizeL] at hcond
            rw [printElems]
            simp only [List.cons_append, List.append_assoc]
            rw [(ih f (by omega)).1 x (',' :: (printElems (y :: ys) ++ ']' :: rest))
              (by omega) rfl]
            simp only [Option.some_bind]
            rw [(ih f (by omega)).2.1 (y :: ys) rest (by simp) (by rw [jsizeL]; omega)]
            simp
    · -- object members
      intro fs rest hne hcond
      cases fuel with
      | zero => omega
      | succ f =>
        cases fs with
        | nil => exact absurd rfl hne
        | cons kv fs =>
          obtain ⟨k, v⟩ := kv
          have hvpos := jsize_pos v
          rw [jsizeF] at hcond
          dsimp only at hcond
          cases fs with
          | nil =>
            rw [printFields]
            simp only [List.cons_append, List.append_assoc, List.nil_append]
            rw [parseMembers1, if_pos rfl]
            rw [parseStrBody_escStr k.data (':' :: (printV v ++ '\x7d' :: rest))]
            simp only [Option.some_bind]
            rw [(ih f (by omega)).1 v ('\x7d' :: rest) (by omega) rfl]
            simp only [Option.some_bind]
            simp
          | cons kv2 fs2 =>
            obtain ⟨k2, v2⟩ := kv2
            rw [jsizeF] at hcond
            dsimp only at hcond
            have hv2pos := jsize_pos v2
            rw [printFields]
            simp only [List.cons_append, List.append_assoc, List.nil_append]
            rw [parseMembers1, if_pos rfl]
            rw [parseStrBody_escStr k.data
              (':' :: (printV v ++ ',' :: (printFields ((k2, v2) :: fs2) ++ '\x7d' :: rest)))]
            simp only [Option.some_bind]
            rw [(ih f (by omega)).1 v
              (',' :: (printFields ((k2, v2) :: fs2) ++ '\x7d' :: rest)) (by omega) rfl]
            simp only [Option.some_bind]
            rw [(ih f (by omega)).2.2 ((k2, v2) :: fs2) rest (by simp)
              (by rw [jsizeF]; dsimp only; omega)]
            simp


theorem natChars_length_pos (n : Nat) : 1 ≤ (natChars n).length := by
  cases hx : natChars n with
  | nil => exact absurd hx (natChars_ne_nil n)
  | cons c cs => simp

theorem intChars_length_pos (n : Int) : 1 ≤ (intChars n).length := by
  unfold intChars
  split
  · simp
  · exact natChars_length_pos _

/-- The fuel measure is bounded by twice the printed length. -/
theorem jsize_le_aux : ∀ N : Nat,
    (∀ v : JValue, sizeOf v ≤ N → jsize v ≤ 2 * (printV v).length) ∧
    (∀ xs : List JValue, sizeOf xs ≤ N →
      jsizeL xs ≤ 2 * (printElems xs).length + 2) ∧
    (∀ fs : List (String × JValue), sizeOf fs ≤ N →
      jsizeF fs ≤ 2 * (printFields fs).length + 1) := by
  intro N
  induction N using Nat.strong_induction_on with
  | _ N ih =>
    refine ⟨?_, ?_, ?_⟩
    · intro v hv
      cases v with
      | jnull => rw [jsize, printV]; simp
      | jbool b => cases b <;> (rw [jsize, printV]; simp)
      | jnum n =>
        rw [jsize, printV]
        have := intChars_length_pos n
        omega
      | jstr s =>
        rw [jsize, printV]
        simp only [List.length_cons, List.length_append]
        omega
      | jarr xs =>
        have hlt : sizeOf xs < N := by
          have hspec : sizeOf (JValue.jarr xs) = 1 + sizeOf xs := by
            simp [JValue.jarr.sizeOf_spec]
          omega
        have hL := (ih (sizeOf xs) hlt).2.1 xs le_rfl
        rw [jsize, printV]
        simp only [List.length_cons, List.length_append]
        omega
      | jobj fs =>
        have hlt : sizeOf fs < N := by
          have hspec : sizeOf (JValue.jobj fs) = 1 + sizeOf fs := by
            simp [JValue.jobj.sizeOf_spec]
          omega
        have hF := (ih (sizeOf fs) hlt).2.2 fs le_rfl
        rw [jsize, printV]
        simp only [List.length_cons, List.length_append]
        omega
    · intro xs hxs
      cases xs with
      | nil => rw [jsizeL, printElems]; simp
      | cons x xs =>
        have hspec : sizeOf (x :: xs) = 1 + sizeOf x + sizeOf xs := by
          simp
        have hx := (ih (sizeOf x) (by omega)).1 x le_rfl
        cases xs with
        | nil =>
          rw [jsizeL, jsizeL, printElems]
          omega
        | cons y ys =>
          have hys := (ih (sizeOf (y :: ys)) (by omega)).2.1 (y :: ys) le_rfl
          rw [jsizeL, printElems]
          simp only [List.length_append, List.length_cons]
          omega
    · intro fs hfs
      cases fs with
      | nil => rw [jsizeF, printFields]; simp
      | cons kv fs =>
        obtain ⟨k, v⟩ := kv
        have hspec : sizeOf ((k, v) :: fs) = 1 + (1 + sizeOf k + sizeOf v) + sizeOf fs := by
          simp
        have hv := (ih (sizeOf v) (by omega)).1 v le_rfl
        cases fs with
        | nil =>
          rw [jsizeF, jsizeF, printFields]
          simp only [List.length_append, List.length_cons]
          omega
        | cons kv2 fs2 =>
          have hfs2 := (ih (sizeOf (kv2 :: fs2)) (by omega)).2.2 (kv2 :: fs2) le_rfl
          rw [jsizeF, printFields]
          simp only [List.length_append, List.length_cons]
          omega

/-- `JSON.parse` inverts `JSON.stringify` on every modelled value. -/
theorem jsonParse_stringify (v : JValue) :
    jsonParse (jsonStringify v) = some v := by
  unfold jsonParse jsonStringify
  have hdata : (String.mk (printV v)).data = printV v := rfl
  rw [hdata]
  have hsize := (jsize_le_aux (sizeOf v)).1 v le_rfl
  have h := (parse_print_aux (2 * (printV v).length + 1)).1 v [] (by omega) rfl
  rw [List.append_nil] at h
  rw [h]


theorem printV_ne_nil (v : JValue) : printV v ≠ [] := by
  obtain ⟨c, cs, hcons, _⟩ := printV_cons v
  rw [hcons]
  simp

/-- C9 counterexample: the login save does not overwrite all four
storage fields — `role` is only written when truthy. A successful login
whose response names no role leaves a stale stored `role`, so the
reloaded session differs from the saved one. -/
theorem save_load_role_mismatch :
    (login none (.ok c9data) c9w).2 = .ok c9data ∧
    (login none (.ok c9data) c9w).1.state.role = none ∧
    (loadState jsonParse (login none (.ok c9data) c9w).1.store).role =
      some (.jstr "teacher") := ⟨rfl, rfl, rfl⟩

/-- C9 amended: the save performed on a successful login followed by
the initial-state load yields an equivalent session, provided the
response carried a nonempty string token and truthy string role and
username (the fields the save actually writes; `role`/`userName` are
only overwritten when truthy). -/
theorem login_save_load_roundtrip (w : World) (roleParam : Option JValue)
    (data : JValue) (t rl un : String)
    (happ : loginIsApproved data = true)
    (htok : data.getF "access_token" = some (.jstr t)) (ht : t ≠ "")
    (hrole : (loginUserData data).getF "role" = some (.jstr rl)) (hrl : rl ≠ "")
    (huser : (loginUserData data).getF "username" = some (.jstr un)) (hun : un ≠ "") :
    loadState jsonParse (login roleParam (.ok data) w).1.store =
      (login roleParam (.ok data) w).1.state := by
  unfold login
  dsimp only
  rw [if_pos happ]
  dsimp only
  have hur : loginUserRole roleParam data = some (.jstr rl) := by
    unfold loginUserRole
    rw [hrole]
    simp [jsOr, truthyO, JValue.truthy, hrl]
  rw [hur, huser]
  have htr : truthyO (some (JValue.jstr rl)) = true := by
    simp [truthyO, JValue.truthy, hrl]
  have htu : truthyO (some (JValue.jstr un)) = true := by
    simp [truthyO, JValue.truthy, hun]
  rw [htok]
  unfold loadState
  simp only [htr, htu, if_pos]
  have hnn : jsonStringify (loginUserData data) ≠ "" := by
    unfold jsonStringify
    intro hx
    exact printV_ne_nil (loginUserData data) (by
      have : (String.mk (printV (loginUserData data))).data = ("" : String).data := by
        rw [hx]
      simpa using this)
  simp only [jsToStringO_jstr, jsOr, htu, if_pos]
  congr 1
  · simp [strOrNull, ht]
  · rw [if_neg hnn, jsonParse_stringify]
  · simp [strOrNull, hrl]
  · simp [strOrNull, hun]


/-- C9 witness: the round-trip theorem at the concrete student login
scenario. -/
theorem login_save_load_roundtrip_holds :
    loadState jsonParse (login (some (.jstr "student")) (.ok c7data) w0).1.store =
      (login (some (.jstr "student")) (.ok c7data) w0).1.state :=
  login_save_load_roundtrip w0 (some (.jstr "student")) c7data "t1" "student" "a"
    rfl rfl (by decide) rfl (by decide) rfl (by decide)

end Auth
